import Mathlib

/-!
# jasco: the `Error` record reported to API clients

A shallow embedding of `error.go`: the `Error` struct with its JSON field
tags, the constructors `NewError` and `NewInternalServerError`, the mutator
`SetRequestID`, and the reserved code and message constants.

Pointers are modelled by state passing: a method with receiver `e *Error`
is a function from the record before the call to the record after it.
-/

namespace Jasco

/-! ## Values carried by the record -/

/-- A non-nil Go `error` value, as built by `errors.New`: it carries the text
returned by its `Error()` method. -/
structure GoError where
  text : String
  deriving DecidableEq

/-- The Go call `errors.New(text)`. -/
def errorsNew (text : String) : GoError := ⟨text⟩

/-- A value stored under a key of `Meta` (`interface{}` in the source),
restricted to the values that have a JSON rendering: null, booleans,
integers, strings, arrays and objects. -/
inductive JValue where
  | null : JValue
  | bool (b : Bool) : JValue
  | num (n : Int) : JValue
  | str (s : String) : JValue
  | arr (items : List JValue) : JValue
  | obj (members : List (String × JValue)) : JValue

/-! ## Constants (`error.go`, lines 8-19) -/

def requestURLNotFoundErrorCode : String := "J0001"
def internalServerErrorCode : String := "J0002"
def requestBodyReadErrorCode : String := "J0003"
def requestBodyParseErrorCode : String := "J0004"

/-- SomethingWentWrong is an error message that does not explain anything
to users except something went wrong. -/
def SomethingWentWrong : String := "Something went wrong. Please try again later."

/-- Modelled from the spec: the constant `http.StatusInternalServerError` of
Go's `net/http`, which is not part of this repository ("HTTP 500"). -/
def StatusInternalServerError : Int := 500

/-! ## The record (`error.go`, lines 28-62) -/

/-- Error has the error information reported to clients of API. `Err` is
`none` for a nil `error`; `Meta` is `none` for a nil map and `some kvs` for
an allocated map with the entries `kvs`. -/
structure Error where
  Code : String
  Message : String
  RequestID : String
  Status : Int
  Err : Option GoError
  Meta : Option (List (String × JValue))

/-- NewError creates a new Error instance. `RequestID` is not named in the
composite literal and so has the zero value of `string`. -/
def NewError (code : String) (msg : String) (status : Int) (err : Option GoError) : Error :=
  { Code := code
    Message := msg
    RequestID := ""
    Status := status
    Err := err
    Meta := some [] }

/-- NewInternalServerError creates an internal server error response having
an error information. -/
def NewInternalServerError (err : Option GoError) : Error :=
  NewError internalServerErrorCode SomethingWentWrong StatusInternalServerError err

/-! ## Decimal rendering of a `uint64` -/

/-- The ASCII digit of a value below ten (`'0' + d`). -/
def digitChar (d : Nat) : Char := Char.ofNat (48 + d)

/-- Length of the buffer into which an integer is formatted. -/
def intbufLen : Nat := 68

/-- The base-10 loop of integer formatting: while `u >= 10` the digit
`u - (u / 10) * 10` is written in front of what is already in the buffer and
`u` becomes `u / 10`; the last digit written is `u` itself. `room` is the
number of free bytes left in the buffer. -/
def fmtDecimalLoop : Nat → Nat → List Char → List Char
  | 0, _, buf => buf
  | room + 1, u, buf =>
    if 10 ≤ u then fmtDecimalLoop room (u / 10) (digitChar (u - (u / 10) * 10) :: buf)
    else digitChar u :: buf

/-- Modelled from the spec: `fmt.Sprint` of Go's standard library applied to
one `uint64`, which is not part of this repository; it gives "the decimal
string rendering" of the value, produced digit by digit from the least
significant one. -/
def fmtSprint (id : Nat) : String := String.mk (fmtDecimalLoop intbufLen id [])

/-- SetRequestID set the ID of the current request to Error. The argument is
a `uint64`, a natural number below `2 ^ 64`. -/
def SetRequestID (e : Error) (id : Nat) : Error :=
  { e with RequestID := fmtSprint id }

/-! ## Reading a decimal numeral back -/

/-- The value of an ASCII decimal digit, if the character is one. -/
def digitValue (c : Char) : Option Nat :=
  if 48 ≤ c.toNat ∧ c.toNat ≤ 57 then some (c.toNat - 48) else none

/-- Reads the digits of a numeral from the left, `acc` being the value of the
digits already read. -/
def parseDigits : List Char → Nat → Option Nat
  | [], acc => some acc
  | c :: cs, acc =>
    match digitValue c with
    | some d => parseDigits cs (10 * acc + d)
    | none => none

/-- Parses a string as a decimal natural number: one or more ASCII digits and
nothing else. -/
def parseDecimal (s : String) : Option Nat :=
  match s.data with
  | [] => none
  | cs => parseDigits cs 0

/-! ## The serialization boundary

The record is rendered by Go's `encoding/json`, driven by the `json:"..."`
tags of the struct fields. -/

/-- The lower-case hexadecimal digit of a value below sixteen. -/
def hexChar (d : Nat) : Char :=
  if d < 10 then Char.ofNat (48 + d) else Char.ofNat (87 + d)

/-- Modelled from the spec: how the JSON encoder of Go's standard library
writes one character inside a string literal. The quote and the backslash
are preceded by a backslash; backspace, form feed, newline, carriage return
and tab have their short escapes; the other control characters and the
characters `<`, `>`, `&`, U+2028 and U+2029 are written as `\uXXXX`; every
other character is written as it is. -/
def escapeChar (c : Char) : List Char :=
  if c = '"' then ['\\', '"']
  else if c = '\\' then ['\\', '\\']
  else if c = '\x08' then ['\\', 'b']
  else if c = '\x0c' then ['\\', 'f']
  else if c = '\n' then ['\\', 'n']
  else if c = '\r' then ['\\', 'r']
  else if c = '\t' then ['\\', 't']
  else if c.toNat < 32 ∨ c = '<' ∨ c = '>' ∨ c = '&' then
    ['\\', 'u', '0', '0', hexChar (c.toNat / 16), hexChar (c.toNat % 16)]
  else if c.toNat = 8232 then ['\\', 'u', '2', '0', '2', '8']
  else if c.toNat = 8233 then ['\\', 'u', '2', '0', '2', '9']
  else [c]

/-- Modelled from the spec: the JSON string literal of a Go string, as
written by `encoding/json` (which is not part of this repository): the
escaped characters between two quotes. -/
def encodeString (s : String) : String :=
  String.mk ('"' :: (s.data.flatMap escapeChar ++ ['"']))

/-- The JSON rendering of a signed integer: a minus sign when the number is
negative, then all the decimal digits of its magnitude, whatever its size
(a magnitude `u` has at most `u + 1` digits). -/
def encodeInt (n : Int) : String :=
  if n < 0 then String.mk ('-' :: fmtDecimalLoop (n.natAbs + 1) n.natAbs [])
  else String.mk (fmtDecimalLoop (n.natAbs + 1) n.natAbs [])

/-- Inserts a rendered member into a list of members sorted by key. -/
def insertMember (m : String × String) : List (String × String) → List (String × String)
  | [] => [m]
  | x :: xs => if m.1 < x.1 then m :: x :: xs else x :: insertMember m xs

/-- Sorts rendered members by key, as the encoder does for the keys of a map. -/
def sortMembers : List (String × String) → List (String × String)
  | [] => []
  | m :: ms => insertMember m (sortMembers ms)

/-- Writes the members of an object: `"key":value`, separated by commas. -/
def joinMembers : List (String × String) → String
  | [] => ""
  | [m] => encodeString m.1 ++ ":" ++ m.2
  | m :: ms => encodeString m.1 ++ ":" ++ m.2 ++ "," ++ joinMembers ms

mutual
/-- Modelled from the spec: the JSON text of a value stored in `Meta`, as
written by `encoding/json`; the members of an object are written in the order
of their keys. -/
def JValue.render : JValue → String
  | .null => "null"
  | .bool true => "true"
  | .bool false => "false"
  | .num n => encodeInt n
  | .str s => encodeString s
  | .arr items => "[" ++ renderItems items ++ "]"
  | .obj members => "\x7b" ++ joinMembers (sortMembers (renderMembers members)) ++ "\x7d"
/-- The elements of an array, separated by commas. -/
def renderItems : List JValue → String
  | [] => ""
  | [v] => v.render
  | v :: w :: vs => v.render ++ "," ++ renderItems (w :: vs)
/-- The members of an object, each with its rendered value. -/
def renderMembers : List (String × JValue) → List (String × String)
  | [] => []
  | (k, v) :: rest => (k, v.render) :: renderMembers rest
end

/-- The Go value held by a field of `Error`, by the type of the field. -/
inductive FieldValue where
  | string (s : String) : FieldValue
  | int (n : Int) : FieldValue
  | error (err : Option GoError) : FieldValue
  | map (m : Option (List (String × JValue))) : FieldValue

/-- A field of the struct `Error`: its Go name, the name given in its
`json:"..."` tag, and the value it holds in a record. -/
structure StructField where
  name : String
  tag : String
  get : Error → FieldValue

/-- The fields of `Error` with their tags, in the order of declaration
(`error.go`, lines 29-62). -/
def errorFields : List StructField :=
  [ ⟨"Code", "code", fun e => .string e.Code⟩,
    ⟨"Message", "message", fun e => .string e.Message⟩,
    ⟨"RequestID", "request_id", fun e => .string e.RequestID⟩,
    ⟨"Status", "-", fun e => .int e.Status⟩,
    ⟨"Err", "-", fun e => .error e.Err⟩,
    ⟨"Meta", "meta", fun e => .map e.Meta⟩ ]

/-- Modelled from the spec: the key under which `encoding/json` writes a
field, "omitting fields tagged as internal-only": none for the tag `-`, the
name in the tag otherwise, and the Go name of the field when the tag is
empty. -/
def jsonKey (f : StructField) : Option String :=
  if f.tag = "-" then none
  else if f.tag = "" then some f.name
  else some f.tag

/-- Modelled from the spec: the JSON text `encoding/json` writes for the
value of a field. A nil map and a nil interface are `null`; a value made by
`errors.New` has no exported field and is an empty object. -/
def encodeFieldValue : FieldValue → String
  | .string s => encodeString s
  | .int n => encodeInt n
  | .error none => "null"
  | .error (some _) => "\x7b\x7d"
  | .map none => "null"
  | .map (some kvs) => (JValue.obj kvs).render

/-- The members of the JSON object of a record: one per field that has a
key, in the order of declaration, with its rendered value. -/
def jsonMembers (e : Error) : List (String × String) :=
  errorFields.filterMap fun f => (jsonKey f).map fun k => (k, encodeFieldValue (f.get e))

/-- Modelled from the spec: `json.Marshal` of Go's standard library applied
to an `Error`, the "serialization boundary that can render a tagged-field
record as JSON, omitting fields tagged as internal-only"; it is not part of
this repository. -/
def Marshal (e : Error) : String :=
  "\x7b" ++ joinMembers (jsonMembers e) ++ "\x7d"

/-! ## Maps as references

A Go map value is a reference: two records share a map when their `Meta`
fields hold the same reference. To speak about sharing, the allocated maps
are kept in a heap and a record holds an address. -/

/-- The maps allocated so far: the map at address `a` is the entry of index
`a`. -/
abbrev MapHeap := List (List (String × JValue))

/-- The struct `Error` as it is stored: `Meta` holds the address of a map, or
`none` for the nil map. -/
structure ErrorCell where
  Code : String
  Message : String
  RequestID : String
  Status : Int
  Err : Option GoError
  Meta : Option Nat

/-- The record seen through its reference: the fields of the cell, with the
entries of the map `Meta` refers to. -/
def ErrorCell.load (c : ErrorCell) (heap : MapHeap) : Error :=
  { Code := c.Code
    Message := c.Message
    RequestID := c.RequestID
    Status := c.Status
    Err := c.Err
    Meta := c.Meta.bind fun a => heap[a]? }

/-- `NewError` with the allocation made explicit: the composite literal
`map[string]interface{}{}` allocates a new empty map, at the first unused
address, and the record holds its address. -/
def NewErrorAlloc (heap : MapHeap) (code : String) (msg : String) (status : Int)
    (err : Option GoError) : ErrorCell × MapHeap :=
  ({ Code := code
     Message := msg
     RequestID := ""
     Status := status
     Err := err
     Meta := some heap.length },
   heap ++ [[]])

/-- The entries of a map after the assignment `m[key] = value`: the value of
an existing key is replaced, a new key is added. -/
def mapAssign : List (String × JValue) → String → JValue → List (String × JValue)
  | [], key, value => [(key, value)]
  | (k, v) :: rest, key, value =>
    if k = key then (key, value) :: rest else (k, v) :: mapAssign rest key value

/-- The Go statement `e.Meta[key] = value`: the map `e.Meta` refers to is
updated in place; there is no result when `e.Meta` is the nil map (the
statement panics). -/
def MetaAssign (heap : MapHeap) (c : ErrorCell) (key : String) (value : JValue) :
    Option MapHeap :=
  match c.Meta with
  | none => none
  | some a =>
    match heap[a]? with
    | none => none
    | some kvs => some (heap.set a (mapAssign kvs key value))

/-! ## The convention on codes -/

/-- The form the comment on the field `Code` describes: "a single alphabet
prefix and 4-digit error number", that is one ASCII letter followed by
exactly four decimal digits. -/
def isConventionalCode (code : String) : Bool :=
  match code.data with
  | [p, a, b, c, d] => p.isAlpha && a.isDigit && b.isDigit && c.isDigit && d.isDigit
  | _ => false

end Jasco

namespace Jasco

/-! ## Lemmas on the decimal rendering -/

theorem digitValue_digitChar (d : Nat) (h : d < 10) : digitValue (digitChar d) = some d := by
  interval_cases d <;> rfl

theorem fmtDecimalLoop_ne_nil (room u : Nat) (buf : List Char) (h : buf ≠ []) :
    fmtDecimalLoop room u buf ≠ [] := by
  induction room generalizing u buf with
  | zero => simpa [fmtDecimalLoop] using h
  | succ room ih =>
    unfold fmtDecimalLoop
    split
    · exact ih _ _ (List.cons_ne_nil _ _)
    · exact List.cons_ne_nil _ _

theorem fmtDecimalLoop_succ_ne_nil (room u : Nat) (buf : List Char) :
    fmtDecimalLoop (room + 1) u buf ≠ [] := by
  unfold fmtDecimalLoop
  split
  · exact fmtDecimalLoop_ne_nil _ _ _ (List.cons_ne_nil _ _)
  · exact List.cons_ne_nil _ _

theorem parseDigits_fmtDecimalLoop (room u : Nat) (buf : List Char) (h : u < 10 ^ room) :
    parseDigits (fmtDecimalLoop room u buf) 0 = parseDigits buf u := by
  induction room generalizing u buf with
  | zero =>
    have hu : u = 0 := by simpa using h
    simp [fmtDecimalLoop, hu]
  | succ room ih =>
    unfold fmtDecimalLoop
    split
    · have hlt : u / 10 < 10 ^ room := by
        rw [Nat.div_lt_iff_lt_mul (by decide)]
        simpa [pow_succ] using h
      have hd : u - u / 10 * 10 < 10 := by omega
      rw [ih _ _ hlt]
      simp only [parseDigits, digitValue_digitChar _ hd]
      congr 1
      omega
    · have hd : u < 10 := by omega
      simp only [parseDigits, digitValue_digitChar _ hd]
      congr 1
      omega

theorem parseDecimal_fmtSprint (id : Nat) (h : id < 10 ^ intbufLen) :
    parseDecimal (fmtSprint id) = some id := by
  have hne : fmtDecimalLoop intbufLen id [] ≠ [] := fmtDecimalLoop_succ_ne_nil 67 id []
  have hp := parseDigits_fmtDecimalLoop intbufLen id [] h
  unfold parseDecimal fmtSprint
  cases hl : fmtDecimalLoop intbufLen id [] with
  | nil => exact absurd hl hne
  | cons c cs =>
    rw [hl] at hp
    simpa [parseDigits] using hp

theorem digitChar_range (d : Nat) (h : d < 10) :
    48 ≤ (digitChar d).toNat ∧ (digitChar d).toNat ≤ 57 := by
  interval_cases d <;> decide

theorem fmtDecimalLoop_digits (room u : Nat) (buf : List Char)
    (hb : ∀ c ∈ buf, 48 ≤ c.toNat ∧ c.toNat ≤ 57) :
    ∀ c ∈ fmtDecimalLoop room u buf, 48 ≤ c.toNat ∧ c.toNat ≤ 57 := by
  induction room generalizing u buf with
  | zero => simpa [fmtDecimalLoop] using hb
  | succ room ih =>
    unfold fmtDecimalLoop
    split
    · apply ih
      intro c hc
      rcases List.mem_cons.mp hc with rfl | hc
      · exact digitChar_range _ (by omega)
      · exact hb c hc
    · intro c hc
      rcases List.mem_cons.mp hc with rfl | hc
      · exact digitChar_range _ (by omega)
      · exact hb c hc

theorem fmtDecimalLoop_length_le (room n u : Nat) (buf : List Char) (hn : 1 ≤ n)
    (hu : u < 10 ^ n) : (fmtDecimalLoop room u buf).length ≤ buf.length + n := by
  induction room generalizing n u buf with
  | zero => simp [fmtDecimalLoop]
  | succ room ih =>
    unfold fmtDecimalLoop
    split
    · rename_i h10
      obtain ⟨m, rfl⟩ : ∃ m, n = m + 1 := ⟨n - 1, by omega⟩
      have hm : 1 ≤ m := by
        rcases Nat.eq_zero_or_pos m with rfl | hpos
        · simp at hu; omega
        · exact hpos
      have hlt : u / 10 < 10 ^ m := by
        rw [Nat.div_lt_iff_lt_mul (by decide)]
        simpa [pow_succ] using hu
      have := ih m (u / 10) (digitChar (u - u / 10 * 10) :: buf) hm hlt
      simp only [List.length_cons] at this
      omega
    · simp only [List.length_cons]
      omega

theorem fmtDecimalLoop_head (room u : Nat) (buf : List Char) (hr : 0 < room)
    (hu : u < 10 ^ room) :
    ∃ d rest, fmtDecimalLoop room u buf = digitChar d :: rest ∧ d < 10 ∧
      (d = 0 → u = 0 ∧ rest = buf) := by
  induction room generalizing u buf with
  | zero => exact absurd hr (lt_irrefl 0)
  | succ room ih =>
    unfold fmtDecimalLoop
    split
    · rename_i h10
      have hroom : 0 < room := by
        rcases Nat.eq_zero_or_pos room with rfl | hpos
        · simp at hu; omega
        · exact hpos
      have hlt : u / 10 < 10 ^ room := by
        rw [Nat.div_lt_iff_lt_mul (by decide)]
        simpa [pow_succ] using hu
      obtain ⟨d, rest, heq, hd, hz⟩ := ih (u / 10) (digitChar (u - u / 10 * 10) :: buf) hroom hlt
      refine ⟨d, rest, heq, hd, ?_⟩
      intro h0
      have := (hz h0).1
      omega
    · exact ⟨u, buf, rfl, by omega, fun h0 => ⟨h0, rfl⟩⟩

theorem fmtSprint_injective (a b : Nat) (ha : a < 10 ^ intbufLen) (hb : b < 10 ^ intbufLen)
    (h : fmtSprint a = fmtSprint b) : a = b := by
  have h1 := parseDecimal_fmtSprint a ha
  rw [h, parseDecimal_fmtSprint b hb] at h1
  exact (Option.some.inj h1).symm

/-! ## Lemmas on the serialization and on the mutator -/

theorem marshal_members_eq (e : Error) :
    Marshal e = "\x7b" ++ joinMembers
      [("code", encodeString e.Code), ("message", encodeString e.Message),
        ("request_id", encodeString e.RequestID), ("meta", encodeFieldValue (.map e.Meta))]
      ++ "\x7d" := rfl

theorem foldl_setRequestID_frame (ids : List Nat) (e : Error) :
    (ids.foldl SetRequestID e).Status = e.Status ∧ (ids.foldl SetRequestID e).Err = e.Err := by
  induction ids generalizing e with
  | nil => exact ⟨rfl, rfl⟩
  | cons id ids ih => exact ih (SetRequestID e id)

theorem getElem?_append_cons {α : Type} (pre post : List α) (x : α) (n : Nat)
    (hn : n = pre.length) : (pre ++ x :: post)[n]? = some x := by
  subst hn
  induction pre with
  | nil => simp
  | cons a pre ih => simpa using ih

theorem set_append_cons {α : Type} (pre post : List α) (x y : α) :
    (pre ++ x :: post).set pre.length y = pre ++ y :: post := by
  induction pre with
  | nil => rfl
  | cons a pre ih => simp

theorem newErrorAlloc_load (heap : MapHeap) (code msg : String) (status : Int)
    (err : Option GoError) :
    (NewErrorAlloc heap code msg status err).1.load (NewErrorAlloc heap code msg status err).2
      = NewError code msg status err := by
  simp [NewErrorAlloc, ErrorCell.load, NewError]

theorem encodeFieldValue_map_singleton (key : String) (value : JValue) :
    encodeFieldValue (.map (some [(key, value)]))
      = "\x7b" ++ (encodeString key ++ ":" ++ value.render) ++ "\x7d" := by
  simp [encodeFieldValue, JValue.render, renderMembers, sortMembers, insertMember, joinMembers]

/-- The code of a record built by `NewInternalServerError` is `J0002`, one
letter followed by four digits, whatever the cause; `NewError` stores the
code it is given without looking at it. -/
theorem code_of_constructors (code msg : String) (status : Int) (err : Option GoError) :
    (NewInternalServerError err).Code = "J0002" ∧
      isConventionalCode (NewInternalServerError err).Code = true ∧
      (NewError code msg status err).Code = code ∧
      isConventionalCode (NewError code msg status err).Code = isConventionalCode code :=
  ⟨rfl, rfl, rfl, rfl⟩

/-- The rendering of a non-negative integer of any size reads back as the
integer: no digit is lost. -/
theorem encodeInt_roundtrip (u : Nat) : parseDecimal (encodeInt (u : Int)) = some u := by
  have hlt : u < 10 ^ (u + 1) :=
    lt_of_lt_of_le (Nat.lt_pow_self (by decide) u) (Nat.pow_le_pow_right (by decide) (by omega))
  have hne : fmtDecimalLoop (u + 1) u [] ≠ [] := fmtDecimalLoop_succ_ne_nil u u []
  have hp := parseDigits_fmtDecimalLoop (u + 1) u [] hlt
  have hnn : ¬ ((u : Int) < 0) := by omega
  simp only [encodeInt, hnn, if_false, Int.natAbs_ofNat, parseDecimal]
  cases hl : fmtDecimalLoop (u + 1) u [] with
  | nil => exact absurd hl hne
  | cons c cs =>
    rw [hl] at hp
    simpa [parseDigits] using hp

/-! ## The claims -/

/-- C1: for every `uint64` id and every record, after `SetRequestID` the field
`RequestID` is the base-10 string of the id: it is the rendering written by
`fmt.Sprint`, and parsing it as a decimal natural number gives back the id. -/
theorem setRequestID_roundtrip (e : Error) (id : Nat) (h : id < 2 ^ 64) :
    (SetRequestID e id).RequestID = fmtSprint id ∧
      parseDecimal (SetRequestID e id).RequestID = some id := by
  refine ⟨rfl, ?_⟩
  have h68 : id < 10 ^ intbufLen := lt_of_lt_of_le h (by decide)
  exact parseDecimal_fmtSprint id h68

/-- Witness of C1 at the largest `uint64`, which is above `2 ^ 53`. -/
theorem setRequestID_roundtrip_witness :
    2 ^ 53 < 18446744073709551615 ∧
      (SetRequestID (NewError "J0001" "Page not found." 404 none) 18446744073709551615).RequestID
        = "18446744073709551615" ∧
      parseDecimal
        (SetRequestID (NewError "J0001" "Page not found." 404 none) 18446744073709551615).RequestID
        = some 18446744073709551615 :=
  ⟨by decide, by decide,
    (setRequestID_roundtrip (NewError "J0001" "Page not found." 404 none)
      18446744073709551615 (by decide)).2⟩

/-- C2: for every code, message, status and cause (a nil cause included),
`NewError` returns a record whose `Meta` is an allocated map with no entry and
whose `RequestID` is the empty string. -/
theorem newError_meta_empty_requestID_empty (code msg : String) (status : Int)
    (err : Option GoError) :
    (NewError code msg status err).Meta = some [] ∧
      (NewError code msg status err).Meta ≠ none ∧
      (NewError code msg status err).RequestID = "" :=
  ⟨rfl, by simp [NewError], rfl⟩

/-- C3: for every cause, nil or not, `NewInternalServerError` returns a record
with code `J0002`, the message `Something went wrong. Please try again later.`
and status 500; the three fields are the same for any two causes. -/
theorem newInternalServerError_fixed (err err2 : Option GoError) :
    (NewInternalServerError err).Code = "J0002" ∧
      (NewInternalServerError err).Message = "Something went wrong. Please try again later." ∧
      (NewInternalServerError err).Status = 500 ∧
      (NewInternalServerError err).Code = (NewInternalServerError err2).Code ∧
      (NewInternalServerError err).Message = (NewInternalServerError err2).Message ∧
      (NewInternalServerError err).Status = (NewInternalServerError err2).Status :=
  ⟨rfl, rfl, rfl, rfl, rfl, rfl⟩

/-- C4: `NewError` is a total function that stores its arguments unchanged:
the result has the given code, message, status and cause, so the cause is
kept in `Err`. -/
theorem newError_stores_arguments (code msg : String) (status : Int) (err : Option GoError) :
    (NewError code msg status err).Code = code ∧
      (NewError code msg status err).Message = msg ∧
      (NewError code msg status err).Status = status ∧
      (NewError code msg status err).Err = err :=
  ⟨rfl, rfl, rfl, rfl⟩

/-- C5: for every record, the JSON object written from the field tags has
exactly the keys `code`, `message`, `request_id` and `meta`, in this order:
no key `status`, no key for `Status` or `Err`, and no other key; the output
text is these four members between braces. -/
theorem marshal_keys (e : Error) :
    (jsonMembers e).map Prod.fst = ["code", "message", "request_id", "meta"] ∧
      (∀ k, k ∈ (jsonMembers e).map Prod.fst ↔
        k = "code" ∨ k = "message" ∨ k = "request_id" ∨ k = "meta") ∧
      "status" ∉ (jsonMembers e).map Prod.fst ∧
      "Status" ∉ (jsonMembers e).map Prod.fst ∧
      "err" ∉ (jsonMembers e).map Prod.fst ∧
      "Err" ∉ (jsonMembers e).map Prod.fst ∧
      Marshal e =
        "\x7b" ++ ("\"code\":" ++ encodeString e.Code ++ "," ++
          ("\"message\":" ++ encodeString e.Message ++ "," ++
          ("\"request_id\":" ++ encodeString e.RequestID ++ "," ++
          ("\"meta\":" ++ encodeFieldValue (.map e.Meta))))) ++ "\x7d" := by
  have hk : (jsonMembers e).map Prod.fst = ["code", "message", "request_id", "meta"] := rfl
  refine ⟨hk, ?_, ?_, ?_, ?_, ?_, rfl⟩
  · intro k
    rw [hk]
    simp
  all_goals rw [hk]; decide

/-- C6: the serialization does not depend on the internal-only fields: two
records that agree on `Code`, `Message`, `RequestID` and `Meta` have the same
serialized payload, whatever their `Status` and `Err` are. -/
theorem marshal_ignores_status_err (e1 e2 : Error) (hc : e1.Code = e2.Code)
    (hm : e1.Message = e2.Message) (hr : e1.RequestID = e2.RequestID)
    (hmeta : e1.Meta = e2.Meta) : Marshal e1 = Marshal e2 := by
  have h1 := (marshal_members_eq e1)
  have h2 := (marshal_members_eq e2)
  rw [h1, h2, hc, hm, hr, hmeta]

/-- Witness of C6: a 404 record without cause and a 500 record with a cause,
equal on the four client-visible fields. -/
theorem marshal_ignores_status_err_witness :
    (NewError "J0001" "Page not found." 404 none).Status
        ≠ (NewError "J0001" "Page not found." 500 (some (errorsNew "db timeout"))).Status ∧
      (NewError "J0001" "Page not found." 404 none).Err
        ≠ (NewError "J0001" "Page not found." 500 (some (errorsNew "db timeout"))).Err ∧
      Marshal (NewError "J0001" "Page not found." 404 none)
        = Marshal (NewError "J0001" "Page not found." 500 (some (errorsNew "db timeout"))) :=
  ⟨by decide, by decide,
    marshal_ignores_status_err (NewError "J0001" "Page not found." 404 none)
      (NewError "J0001" "Page not found." 500 (some (errorsNew "db timeout"))) rfl rfl rfl rfl⟩

/-- C7: for every cause, `NewInternalServerError` returns the record that
`NewError` returns for `J0002`, the fixed message, 500 and that cause: the
six fields coincide, the cause is forwarded to `Err`, `Meta` is empty and
`RequestID` is the empty string. -/
theorem newInternalServerError_eq_newError (err : Option GoError) :
    NewInternalServerError err
        = NewError "J0002" "Something went wrong. Please try again later." 500 err ∧
      (NewInternalServerError err).Err = err ∧
      (NewInternalServerError err).Meta = some [] ∧
      (NewInternalServerError err).RequestID = "" :=
  ⟨rfl, rfl, rfl, rfl⟩

/-- C8: `SetRequestID` changes only `RequestID`: `Code`, `Message`, `Status`,
`Err` and `Meta` are the same after the call as before it; hence `Status` and
`Err` keep their values through any sequence of calls of the only method of
the record. -/
theorem setRequestID_frame (e : Error) (id : Nat) (ids : List Nat) :
    (SetRequestID e id).Code = e.Code ∧
      (SetRequestID e id).Message = e.Message ∧
      (SetRequestID e id).Status = e.Status ∧
      (SetRequestID e id).Err = e.Err ∧
      (SetRequestID e id).Meta = e.Meta ∧
      (ids.foldl SetRequestID e).Status = e.Status ∧
      (ids.foldl SetRequestID e).Err = e.Err := by
  refine ⟨rfl, rfl, rfl, rfl, rfl, ?_, ?_⟩
  · exact (foldl_setRequestID_frame ids e).1
  · exact (foldl_setRequestID_frame ids e).2

/-- C9: end to end, the record `NewError("J0001", "Page not found.", 404, nil)`
after `SetRequestID(42)` serializes to the text
`{"code":"J0001","message":"Page not found.","request_id":"42","meta":{}}`. -/
theorem marshal_not_found_example :
    Marshal (SetRequestID (NewError "J0001" "Page not found." 404 none) 42)
      = "\x7b\"code\":\"J0001\",\"message\":\"Page not found.\",\"request_id\":\"42\",\"meta\":\x7b\x7d\x7d" := by
  decide

/-- C10: end to end, `NewInternalServerError(errors.New("db timeout"))`
serializes to the text
`{"code":"J0002","message":"Something went wrong. Please try again later.","request_id":"","meta":{}}`
and the text `db timeout` is not a substring of the output. -/
theorem marshal_internal_server_error_example :
    Marshal (NewInternalServerError (some (errorsNew "db timeout")))
        = "\x7b\"code\":\"J0002\",\"message\":\"Something went wrong. Please try again later.\",\"request_id\":\"\",\"meta\":\x7b\x7d\x7d" ∧
      ¬ ("db timeout".data <:+:
        (Marshal (NewInternalServerError (some (errorsNew "db timeout")))).data) := by
  have h : Marshal (NewInternalServerError (some (errorsNew "db timeout")))
      = "\x7b\"code\":\"J0002\",\"message\":\"Something went wrong. Please try again later.\",\"request_id\":\"\",\"meta\":\x7b\x7d\x7d" := by
    decide
  refine ⟨h, ?_⟩
  rw [h]
  set_option maxRecDepth 100000 in decide

/-- C11: the comment on the field `Code` says the code always has a single
letter and a 4-digit number, and `NewError` does not keep to it: called with
the code `NOT_FOUND` it returns a record whose code is `NOT_FOUND`, which is
not one letter followed by four digits. -/
theorem newError_code_not_conventional :
    (NewError "NOT_FOUND" "Page not found." 404 none).Code = "NOT_FOUND" ∧
      isConventionalCode (NewError "NOT_FOUND" "Page not found." 404 none).Code = false := by
  decide

/-- C12: the four reserved codes are `J0001`, `J0002`, `J0003` and `J0004`;
they are pairwise distinct, each is one letter followed by exactly four
digits, and they all begin with the same letter. -/
theorem reserved_codes :
    requestURLNotFoundErrorCode = "J0001" ∧
      internalServerErrorCode = "J0002" ∧
      requestBodyReadErrorCode = "J0003" ∧
      requestBodyParseErrorCode = "J0004" ∧
      [requestURLNotFoundErrorCode, internalServerErrorCode, requestBodyReadErrorCode,
        requestBodyParseErrorCode].Nodup ∧
      isConventionalCode requestURLNotFoundErrorCode = true ∧
      isConventionalCode internalServerErrorCode = true ∧
      isConventionalCode requestBodyReadErrorCode = true ∧
      isConventionalCode requestBodyParseErrorCode = true ∧
      requestURLNotFoundErrorCode.data.head? = some 'J' ∧
      internalServerErrorCode.data.head? = some 'J' ∧
      requestBodyReadErrorCode.data.head? = some 'J' ∧
      requestBodyParseErrorCode.data.head? = some 'J' := by
  refine ⟨rfl, rfl, rfl, rfl, ?_, ?_, ?_, ?_, ?_, rfl, rfl, rfl, rfl⟩ <;> decide

/-- C14: `SetRequestID` may be called repeatedly and the last call wins. For
all `uint64` ids `a` and `b`, after a call with `a` followed by a call with
`b` the field `RequestID` is the rendering of `b`, which reads back as `b`,
and it is not the value the first call wrote when `a` and `b` differ; the
other fields are those of the record before the calls, so the record is the
one a single call with `b` leaves. In particular calling it twice with the
same id is the same as calling it once. -/
theorem setRequestID_last_wins (e : Error) (a b : Nat) (ha : a < 2 ^ 64) (hb : b < 2 ^ 64) :
    (SetRequestID (SetRequestID e a) b).RequestID = fmtSprint b ∧
      parseDecimal (SetRequestID (SetRequestID e a) b).RequestID = some b ∧
      (a ≠ b →
        (SetRequestID (SetRequestID e a) b).RequestID ≠ (SetRequestID e a).RequestID) ∧
      (SetRequestID (SetRequestID e a) b).Code = e.Code ∧
      (SetRequestID (SetRequestID e a) b).Message = e.Message ∧
      (SetRequestID (SetRequestID e a) b).Status = e.Status ∧
      (SetRequestID (SetRequestID e a) b).Err = e.Err ∧
      (SetRequestID (SetRequestID e a) b).Meta = e.Meta ∧
      SetRequestID (SetRequestID e a) b = SetRequestID e b ∧
      SetRequestID (SetRequestID e a) a = SetRequestID e a := by
  have ha68 : a < 10 ^ intbufLen := lt_of_lt_of_le ha (by decide)
  have hb68 : b < 10 ^ intbufLen := lt_of_lt_of_le hb (by decide)
  refine ⟨rfl, parseDecimal_fmtSprint b hb68, ?_, rfl, rfl, rfl, rfl, rfl, rfl, rfl⟩
  intro hab heq
  exact hab (fmtSprint_injective b a hb68 ha68 heq).symm

/-- Witness of C14: a call with 41 followed by a call with 42 leaves the
request id `42`, not the `41` written first. -/
theorem setRequestID_last_wins_witness :
    (SetRequestID (NewError "J0001" "Page not found." 404 none) 41).RequestID = "41" ∧
      (SetRequestID (SetRequestID (NewError "J0001" "Page not found." 404 none) 41) 42).RequestID
        = "42" ∧
      parseDecimal
        (SetRequestID (SetRequestID (NewError "J0001" "Page not found." 404 none) 41) 42).RequestID
        = some 42 ∧
      (SetRequestID (SetRequestID (NewError "J0001" "Page not found." 404 none) 41) 42).RequestID
        ≠ (SetRequestID (NewError "J0001" "Page not found." 404 none) 41).RequestID :=
  ⟨by decide,
    (setRequestID_last_wins (NewError "J0001" "Page not found." 404 none) 41 42
      (by decide) (by decide)).1.trans (by decide),
    (setRequestID_last_wins (NewError "J0001" "Page not found." 404 none) 41 42
      (by decide) (by decide)).2.1,
    (setRequestID_last_wins (NewError "J0001" "Page not found." 404 none) 41 42
      (by decide) (by decide)).2.2.1 (by decide)⟩

/-- C15: for every `uint64` id the `RequestID` written by `SetRequestID` is
canonical: it is not empty, has at most 20 characters, consists of the ASCII
digits `0` to `9` (code points 48 to 57) only, and begins with `0` only when
it is the string `0`; hence two different ids give two different strings,
and the string is never the empty `RequestID` of a newly built record. -/
theorem setRequestID_canonical (e : Error) (id : Nat) (h : id < 2 ^ 64) :
    (SetRequestID e id).RequestID ≠ "" ∧
      (SetRequestID e id).RequestID.length ≤ 20 ∧
      (∀ c ∈ (SetRequestID e id).RequestID.data, 48 ≤ c.toNat ∧ c.toNat ≤ 57) ∧
      ((SetRequestID e id).RequestID.data.head? = some '0' →
        (SetRequestID e id).RequestID = "0") ∧
      (∀ (e2 : Error) (id2 : Nat), id2 < 2 ^ 64 → id2 ≠ id →
        (SetRequestID e2 id2).RequestID ≠ (SetRequestID e id).RequestID) ∧
      (∀ (code msg : String) (status : Int) (err : Option GoError),
        (SetRequestID e id).RequestID ≠ (NewError code msg status err).RequestID) := by
  have h68 : id < 10 ^ intbufLen := lt_of_lt_of_le h (by decide)
  have h20 : id < 10 ^ 20 := lt_of_lt_of_le h (by decide)
  have hne : (SetRequestID e id).RequestID ≠ "" := by
    intro hs
    have hd : fmtDecimalLoop intbufLen id [] = [] := congrArg String.data hs
    exact fmtDecimalLoop_succ_ne_nil 67 id [] hd
  refine ⟨hne, ?_, ?_, ?_, ?_, ?_⟩
  · have := fmtDecimalLoop_length_le intbufLen 20 id [] (by decide) h20
    simpa using this
  · exact fmtDecimalLoop_digits intbufLen id [] (by simp)
  · intro hhead
    obtain ⟨d, rest, heq, hd, hz⟩ := fmtDecimalLoop_head intbufLen id [] (by decide) h68
    have hdata : (SetRequestID e id).RequestID.data = digitChar d :: rest := heq
    rw [hdata] at hhead
    have hc : digitChar d = '0' := by simpa using hhead
    have hv := digitValue_digitChar d hd
    rw [hc] at hv
    have hd0 : d = 0 := by
      have : digitValue '0' = some 0 := by decide
      rw [this] at hv
      exact (Option.some.inj hv).symm
    obtain ⟨-, hrest⟩ := hz hd0
    have hs : (SetRequestID e id).RequestID = String.mk (digitChar d :: rest) :=
      congrArg String.mk hdata
    rw [hs, hd0, hrest]
    decide
  · intro e2 id2 h2 hneq heq
    have h2' : id2 < 10 ^ intbufLen := lt_of_lt_of_le h2 (by decide)
    exact hneq (fmtSprint_injective id2 id h2' h68 heq)
  · intro code msg status err
    exact hne

/-- Witness of C15 at the largest `uint64`, whose rendering has 20 characters. -/
theorem setRequestID_canonical_witness :
    18446744073709551615 < 2 ^ 64 ∧
      (SetRequestID (NewInternalServerError none) 18446744073709551615).RequestID ≠ "" ∧
      (SetRequestID (NewInternalServerError none) 18446744073709551615).RequestID.length ≤ 20 ∧
      (SetRequestID (NewInternalServerError none) 18446744073709551615).RequestID.length = 20 :=
  ⟨by decide,
    (setRequestID_canonical (NewInternalServerError none) 18446744073709551615 (by decide)).1,
    (setRequestID_canonical (NewInternalServerError none) 18446744073709551615 (by decide)).2.1,
    by decide⟩

/-- C13: two records built by two calls of `NewError` (with any allocations
in between) have independent `Meta` maps. Both are empty after construction;
adding a key to the `Meta` of one succeeds, puts the key in its map, leaves
the other record as it was, with an empty `Meta`; the serialization of the
mutated record has the key under `meta` and that of the other has `meta`
empty. This holds whichever of the two records is mutated. -/
theorem newError_meta_independent (heap extra : MapHeap)
    (c1 m1 : String) (s1 : Int) (x1 : Option GoError)
    (c2 m2 : String) (s2 : Int) (x2 : Option GoError)
    (key : String) (value : JValue) (r1 r2 : ErrorCell) (h1 h2 : MapHeap)
    (hnew1 : NewErrorAlloc heap c1 m1 s1 x1 = (r1, h1))
    (hnew2 : NewErrorAlloc (h1 ++ extra) c2 m2 s2 x2 = (r2, h2)) :
    r1.load h2 = NewError c1 m1 s1 x1 ∧
      r2.load h2 = NewError c2 m2 s2 x2 ∧
      r1.Meta ≠ r2.Meta ∧
      (∃ h3, MetaAssign h2 r1 key value = some h3 ∧
        (r1.load h3).Meta = some [(key, value)] ∧
        (r2.load h3).Meta = some [] ∧
        r2.load h3 = r2.load h2 ∧
        Marshal (r1.load h3) = "\x7b" ++ joinMembers
          [("code", encodeString c1), ("message", encodeString m1),
            ("request_id", encodeString ""),
            ("meta", "\x7b" ++ (encodeString key ++ ":" ++ value.render) ++ "\x7d")]
          ++ "\x7d" ∧
        Marshal (r2.load h3) = "\x7b" ++ joinMembers
          [("code", encodeString c2), ("message", encodeString m2),
            ("request_id", encodeString ""), ("meta", "\x7b\x7d")]
          ++ "\x7d") ∧
      (∃ h3, MetaAssign h2 r2 key value = some h3 ∧
        (r2.load h3).Meta = some [(key, value)] ∧
        (r1.load h3).Meta = some [] ∧
        r1.load h3 = r1.load h2 ∧
        Marshal (r2.load h3) = "\x7b" ++ joinMembers
          [("code", encodeString c2), ("message", encodeString m2),
            ("request_id", encodeString ""),
            ("meta", "\x7b" ++ (encodeString key ++ ":" ++ value.render) ++ "\x7d")]
          ++ "\x7d" ∧
        Marshal (r1.load h3) = "\x7b" ++ joinMembers
          [("code", encodeString c1), ("message", encodeString m1),
            ("request_id", encodeString ""), ("meta", "\x7b\x7d")]
          ++ "\x7d") := by
  simp only [NewErrorAlloc, Prod.mk.injEq] at hnew1 hnew2
  obtain ⟨rfl, rfl⟩ := hnew1
  obtain ⟨rfl, rfl⟩ := hnew2
  have hempty : encodeFieldValue (.map (some [])) = "\x7b\x7d" := by decide
  have hne : heap.length ≠ (heap ++ [[]] ++ extra).length := by
    simp only [List.length_append, List.length_singleton]
    omega
  -- the heap after the two calls, split at the first and at the second map
  have hs1 : (heap ++ [[]] ++ extra ++ [[]] : MapHeap) = heap ++ [] :: (extra ++ [[]]) := by
    simp
  have hs2 : (heap ++ [[]] ++ extra ++ [[]] : MapHeap) = (heap ++ [[]] ++ extra) ++ [] :: [] := by
    simp
  have ha1 : (heap ++ [[]] ++ extra ++ [[]] : MapHeap)[heap.length]? = some [] := by
    rw [hs1]
    exact getElem?_append_cons _ _ _ _ rfl
  have ha2 : (heap ++ [[]] ++ extra ++ [[]] : MapHeap)[(heap ++ [[]] ++ extra).length]?
      = some [] := by
    rw [hs2]
    exact getElem?_append_cons _ _ _ _ rfl
  -- the heap after adding the key to the first map
  have hset1 : (heap ++ [[]] ++ extra ++ [[]] : MapHeap).set heap.length [(key, value)]
      = heap ++ [(key, value)] :: (extra ++ [[]]) := by
    rw [hs1]
    exact set_append_cons _ _ _ _
  have hb1 : (heap ++ [(key, value)] :: (extra ++ [[]]) : MapHeap)[heap.length]?
      = some [(key, value)] := getElem?_append_cons _ _ _ _ rfl
  have hb2 : (heap ++ [(key, value)] :: (extra ++ [[]]) : MapHeap)[(heap ++ [[]] ++ extra).length]?
      = some [] := by
    have hs : (heap ++ [(key, value)] :: (extra ++ [[]]) : MapHeap)
        = (heap ++ [[(key, value)]] ++ extra) ++ [] :: [] := by simp
    rw [hs]
    exact getElem?_append_cons _ _ _ _ (by simp)
  -- the heap after adding the key to the second map
  have hset2 : (heap ++ [[]] ++ extra ++ [[]] : MapHeap).set (heap ++ [[]] ++ extra).length
      [(key, value)] = (heap ++ [[]] ++ extra) ++ [(key, value)] :: [] := by
    rw [hs2]
    exact set_append_cons _ _ _ _
  have hc2 : ((heap ++ [[]] ++ extra) ++ [(key, value)] :: [] : MapHeap)[
      (heap ++ [[]] ++ extra).length]? = some [(key, value)] :=
    getElem?_append_cons _ _ _ _ rfl
  have hc1 : ((heap ++ [[]] ++ extra) ++ [(key, value)] :: [] : MapHeap)[heap.length]?
      = some [] := by
    have hs : ((heap ++ [[]] ++ extra) ++ [(key, value)] :: [] : MapHeap)
        = heap ++ [] :: (extra ++ [[(key, value)]]) := by simp
    rw [hs]
    exact getElem?_append_cons _ _ _ _ rfl
  refine ⟨?_, ?_, ?_, ?_, ?_⟩
  · simp only [ErrorCell.load, NewError, Option.some_bind, ha1]
  · simp only [ErrorCell.load, NewError, Option.some_bind, ha2]
  · intro h
    exact hne (Option.some.inj h)
  · refine ⟨heap ++ [(key, value)] :: (extra ++ [[]]), ?_, ?_, ?_, ?_, ?_, ?_⟩
    · simp only [MetaAssign, ha1, mapAssign, hset1]
    · simp only [ErrorCell.load, Option.some_bind, hb1]
    · simp only [ErrorCell.load, Option.some_bind, hb2]
    · simp only [ErrorCell.load, Option.some_bind, hb2, ha2]
    · rw [marshal_members_eq, ← encodeFieldValue_map_singleton]
      simp only [ErrorCell.load, Option.some_bind, hb1]
    · rw [marshal_members_eq, ← hempty]
      simp only [ErrorCell.load, Option.some_bind, hb2]
  · refine ⟨(heap ++ [[]] ++ extra) ++ [(key, value)] :: [], ?_, ?_, ?_, ?_, ?_, ?_⟩
    · simp only [MetaAssign, ha2, mapAssign, hset2]
    · simp only [ErrorCell.load, Option.some_bind, hc2]
    · simp only [ErrorCell.load, Option.some_bind, hc1]
    · simp only [ErrorCell.load, Option.some_bind, hc1, ha1]
    · rw [marshal_members_eq, ← encodeFieldValue_map_singleton]
      simp only [ErrorCell.load, Option.some_bind, hc2]
    · rw [marshal_members_eq, ← hempty]
      simp only [ErrorCell.load, Option.some_bind, hc1]

/-- Witness of C13: on an empty heap, a record for a body that cannot be
parsed and an internal server error are built one after the other; the key
`field` added to the `Meta` of the first appears in its serialization and
not in that of the second. -/
theorem newError_meta_independent_witness :
    NewErrorAlloc [] "J0004" "Invalid request body." 400 none
        = (⟨"J0004", "Invalid request body.", "", 400, none, some 0⟩, [[]]) ∧
      NewErrorAlloc [[]] "J0002" "Something went wrong. Please try again later." 500 none
        = (⟨"J0002", "Something went wrong. Please try again later.", "", 500, none, some 1⟩,
            [[], []]) ∧
      ∃ h3, MetaAssign [[], []] ⟨"J0004", "Invalid request body.", "", 400, none, some 0⟩
          "field" (.str "required") = some h3 ∧
        Marshal (ErrorCell.load ⟨"J0004", "Invalid request body.", "", 400, none, some 0⟩ h3)
          = "\x7b\"code\":\"J0004\",\"message\":\"Invalid request body.\",\"request_id\":\"\",\"meta\":\x7b\"field\":\"required\"\x7d\x7d" ∧
        Marshal (ErrorCell.load
            ⟨"J0002", "Something went wrong. Please try again later.", "", 500, none, some 1⟩ h3)
          = "\x7b\"code\":\"J0002\",\"message\":\"Something went wrong. Please try again later.\",\"request_id\":\"\",\"meta\":\x7b\x7d\x7d" := by
  obtain ⟨-, -, -, ⟨h3, ha, -, -, -, hm1, hm2⟩, -⟩ :=
    newError_meta_independent [] [] "J0004" "Invalid request body." 400 none
      "J0002" "Something went wrong. Please try again later." 500 none
      "field" (.str "required")
      ⟨"J0004", "Invalid request body.", "", 400, none, some 0⟩
      ⟨"J0002", "Something went wrong. Please try again later.", "", 500, none, some 1⟩
      [[]] [[], []] rfl rfl
  exact ⟨rfl, rfl, h3, ha, hm1.trans (by decide), hm2.trans (by decide)⟩

end Jasco
